import Mathlib

/-!
Verification of the WinPass-Native password generator core
(`src/password_gen.c`, `src/cli_parser.c`, `src/utils.c` and the unnamed
variant of the CLI parser) against its natural-language specification.

The C code is shallowly embedded: machine integers become `Nat` (with
explicit `% 2^32` / `% 256` where the width matters), the Windows
CryptoAPI random source becomes an explicit record of draw outcomes, and
the generation entry points return a tagged outcome instead of printing.
-/

namespace WinPass

/-! ## Constants (from `include/common.h`) -/

def MIN_PASSWORD_LENGTH : Nat := 4

def MAX_CATEGORY_LENGTH : Nat := 1024

def MAX_INT_PARSE_VALUE : Int := 100000

/-- `MAXDWORD` from the Win32 headers: the largest 32-bit unsigned value. -/
def MAXDWORD : Nat := 2 ^ 32 - 1

/-! ## Character sets

Modelled from the spec: `src/charset.c` (the file defining the charset
tables, listed in the repository README) is not under `src/`; only the
`extern` declarations in `common.h` are.  The spec and the header comments
fix the letters set (52 chars `a`-`z`, `A`-`Z`), the digits set (10 chars
`0`-`9`), a fixed 22-character punctuation set, and the derived full
(84-char) and alphanumeric (62-char) sets. -/

/-- Modelled from the spec: 52 letters `a`-`z`, `A`-`Z` (charset.c absent). -/
def CHARSET_LETTERS : List Char :=
  "abcdefghijklmnopqrstuvwxyzABCDEFGHIJKLMNOPQRSTUVWXYZ".toList

/-- Modelled from the spec: the 10 digits `0`-`9` (charset.c absent). -/
def CHARSET_NUMBERS : List Char := "0123456789".toList

/-- Modelled from the spec: a fixed 22-character punctuation set
(charset.c absent; the spec fixes only the size and that it is
punctuation, so a representative 22-character set is used). -/
def CHARSET_SYMBOLS : List Char := "!@#$%^&*()-_=+[]<>?;:.".toList

/-- Modelled from the spec: letters + digits + symbols, 84 characters. -/
def CHARSET_FULL : List Char := CHARSET_LETTERS ++ CHARSET_NUMBERS ++ CHARSET_SYMBOLS

/-- Modelled from the spec: letters + digits, 62 characters. -/
def CHARSET_ALPHANUM : List Char := CHARSET_LETTERS ++ CHARSET_NUMBERS

/-! ## Random source model

`CryptAcquireContext` / `CryptGenRandom` are modelled by an explicit
record: whether acquisition succeeds, the outcome of the single bulk
byte fill (`none` = failure, `some f` = byte `i` of the buffer is
`f i % 256`), and the stream of outcomes of the per-`DWORD` draws made
by the shuffle (`none` = the call fails; an exhausted stream also
models failure). -/

structure CryptoSource where
  acquireOk : Bool
  fill : Option (Nat → Nat)
  dwords : List (Option Nat)

/-! ## ShufflePassword (`src/password_gen.c`, lines 55-105) -/

/-- The rejection threshold computed at each Fisher-Yates step:
`dwThreshold = MAXDWORD - (MAXDWORD % dwRange)` (line 79). -/
def rejectionThreshold (range : Nat) : Nat := MAXDWORD - MAXDWORD % range

/-- The rejection-sampling `do … while` loop (lines 87-92): draw 32-bit
values until one is `< threshold`; a failing draw (or an exhausted
stream) aborts with `none`. -/
def drawBelow (threshold : Nat) : List (Option Nat) → Option (Nat × List (Option Nat))
  | [] => none
  | none :: _ => none
  | some v :: rest =>
      let r := v % 2 ^ 32
      if r < threshold then some (r, rest) else drawBelow threshold rest

/-- The three-assignment swap of `password[i]` and `password[j]`
(lines 101-103). -/
def listSwap (l : List Char) (i j : Nat) : List Char :=
  let a := l.getD i ' '
  let b := l.getD j ' '
  (l.set i b).set j a

/-- The descending Fisher-Yates loop (lines 61-104).  The argument `i` is
the loop variable (`for (int i = length - 1; i > 0; i--)`); the result
carries the buffer, whether the loop completed (the C function returns
`void` and gives the caller no such flag — it is recorded here to state
properties about mid-shuffle failure), and the unconsumed draw stream. -/
def shuffleGo : List Char → Nat → List (Option Nat) → List Char × Bool × List (Option Nat)
  | buf, 0, tape => (buf, true, tape)
  | buf, i + 1, tape =>
      let range := i + 2
      let threshold := rejectionThreshold range
      match drawBelow threshold tape with
      | none => (buf, false, tape)
      | some (r, tape') =>
          let j := r % range
          shuffleGo (listSwap buf (i + 1) j) i tape'

/-- `ShufflePassword` (lines 55-105): shuffle the whole buffer in place. -/
def ShufflePassword (password : List Char) (tape : List (Option Nat)) :
    List Char × Bool × List (Option Nat) :=
  shuffleGo password (password.length - 1) tape

/-! ## Outcomes

The C entry points return `void` and report through the console; the
observable outcome (error message vs. a generated password that is
printed and copied to the clipboard) is modelled as a tagged value.
The error taxonomy follows the spec's `ValidationError` /
`SourceUnavailable` / `GenerationFailed`; `outOfRange` is part of the
taxonomy although, as proved below, `GenerateAdvanced` never produces
it. -/

inductive GenError where
  | noCategoryEnabled : GenError
  | tooShort (required : Nat) : GenError
  | outOfRange (category : String) (max : Nat) : GenError
  | sourceUnavailable : GenError
  | generationFailed : GenError
  deriving DecidableEq, Repr

inductive GenOutcome where
  | ok (password : List Char) : GenOutcome
  | error (e : GenError) : GenOutcome
  deriving DecidableEq, Repr

/-- `charset[b % charsetLen]` — the biased byte-to-character map used for
initial character assignment (`password_gen.c` lines 150, 238, 247, 258). -/
def mapByte (cs : List Char) (b : Nat) : Char := cs.getD (b % cs.length) ' '

/-! ## GenerateAdvanced (`src/password_gen.c`, lines 178-292) -/

/-- Phase 1 of `GenerateAdvanced` (lines 227-262): fill the password
buffer category by category, letters first, then numbers at offset
`useLetters ? letterCount : 0`, then symbols at the sum of both
preceding offsets.  `f i % 256` is byte `i` of the random buffer. -/
def assemble (letterCount numberCount symbolCount : Nat)
    (useLetters useNumbers useSymbols : Bool) (f : Nat → Nat) : List Char :=
  (if useLetters ∧ 0 < letterCount then
      (List.range letterCount).map (fun i => mapByte CHARSET_LETTERS (f i % 256))
    else []) ++
  (if useNumbers ∧ 0 < numberCount then
      let offset := if useLetters then letterCount else 0
      (List.range numberCount).map (fun i => mapByte CHARSET_NUMBERS (f (offset + i) % 256))
    else []) ++
  (if useSymbols ∧ 0 < symbolCount then
      let offset := (if useLetters then letterCount else 0) +
        (if useNumbers then numberCount else 0)
      (List.range symbolCount).map (fun i => mapByte CHARSET_SYMBOLS (f (offset + i) % 256))
    else [])

/-- `GenerateAdvanced` (lines 178-292).  Validation: at least one
category enabled, then minimum total length; allocations are modelled as
succeeding; then context acquisition, the single `totalLength`-byte
fill, assembly, and the shuffle.  Faithful to the C: the result of
`ShufflePassword` is used but its success flag does not exist at this
level (the C call on line 268 returns `void`), so the buffer is emitted
even when the shuffle aborted mid-way. -/
def GenerateAdvanced (letterCount numberCount symbolCount : Nat)
    (useLetters useNumbers useSymbols : Bool) (src : CryptoSource) : GenOutcome :=
  if !useLetters && !useNumbers && !useSymbols then
    .error .noCategoryEnabled
  else if (if useLetters then letterCount else 0) +
      (if useNumbers then numberCount else 0) +
      (if useSymbols then symbolCount else 0) < MIN_PASSWORD_LENGTH then
    .error (.tooShort MIN_PASSWORD_LENGTH)
  else if !src.acquireOk then
    .error .sourceUnavailable
  else
    match src.fill with
    | none => .error .generationFailed
    | some f =>
        .ok (ShufflePassword
          (assemble letterCount numberCount symbolCount useLetters useNumbers useSymbols f)
          src.dwords).1

/-! ## GenerateCore (`src/password_gen.c`, lines 112-167) -/

/-- `GenerateCore` (lines 112-167): the legacy single-charset path.
Validates the minimum length, acquires the context, draws `length`
bytes in one call and maps each byte directly through the full or
alphanumeric charset.  No shuffle is performed. -/
def GenerateCore (length : Nat) (useSymbols : Bool) (src : CryptoSource) : GenOutcome :=
  let currentCharset := if useSymbols then CHARSET_FULL else CHARSET_ALPHANUM
  if length < MIN_PASSWORD_LENGTH then
    .error (.tooShort MIN_PASSWORD_LENGTH)
  else if !src.acquireOk then
    .error .sourceUnavailable
  else
    match src.fill with
    | none => .error .generationFailed
    | some f =>
        .ok ((List.range length).map (fun i => mapByte currentCharset (f i % 256)))

/-! ## String utilities (`src/utils.c`)

Wide-character argument strings are embedded as `List Char`; the C
comparisons are on numeric character values, which coincide with `Char`
equality / `Char.toNat` comparisons here. -/

/-- `WStrEquals` (utils.c lines 351-359): character-by-character equality;
the wide string must end exactly where the ASCII literal does.  (The C
returns `FALSE` as soon as `*wstr` differs from `*str`; a terminator
mismatch is covered because the literals compared against contain no
NUL.) -/
def WStrEquals : List Char → List Char → Bool
  | w, [] => w.isEmpty
  | [], _ :: _ => false
  | c :: w, d :: s => if c = d then WStrEquals w s else false

/-- `WStrStartsWith` (utils.c lines 367-375). -/
def WStrStartsWith : List Char → List Char → Bool
  | _, [] => true
  | [], _ :: _ => false
  | c :: w, d :: s => if c = d then WStrStartsWith w s else false

/-- The accumulation loop of `SimpleWStrToInt` (utils.c lines 328-343):
consume leading digits, capping the accumulator at
`MAX_INT_PARSE_VALUE`.  `c.toNat` is the numeric WCHAR value; `48`/`57`
are `'0'`/`'9'`. -/
def simpleWStrToIntGo : List Char → Int → Int
  | [], res => res
  | c :: rest, res =>
      if 48 ≤ c.toNat ∧ c.toNat ≤ 57 then
        if res > MAX_INT_PARSE_VALUE / 10 then MAX_INT_PARSE_VALUE
        else
          let res' := res * 10 + ((c.toNat : Int) - 48)
          if res' > MAX_INT_PARSE_VALUE then MAX_INT_PARSE_VALUE
          else simpleWStrToIntGo rest res'
      else res

/-- `SimpleWStrToInt` (utils.c lines 328-343). -/
def SimpleWStrToInt (str : List Char) : Int := simpleWStrToIntGo str 0

/-- `ExtractValueFromArg` (utils.c lines 382-392): scan to the first
`'='`; parse what follows it, or return `-1` if there is none. -/
def ExtractValueFromArg (arg : List Char) : Int :=
  match arg.dropWhile (fun c => ¬ (c = '=')) with
  | [] => -1
  | _ :: rest => SimpleWStrToInt rest

/-! ## PasswordConfig and the two CLI parsers -/

/-- `PasswordConfig` (`include/cli_parser.h`): category toggles and
per-category lengths (C `int` fields). -/
structure PasswordConfig where
  useLetters : Bool
  useNumbers : Bool
  useSymbols : Bool
  letterLength : Int
  numberLength : Int
  symbolLength : Int
  deriving DecidableEq, Repr

/-- The parser defaults (both implementations, identical): all categories
enabled, lengths 8 / 4 / 4. -/
def defaultConfig : PasswordConfig :=
  { useLetters := true, useNumbers := true, useSymbols := true
    letterLength := 8, numberLength := 4, symbolLength := 4 }

namespace CliParser

/-- `cli_parser.c` line 53: accept an extracted `--letters=` value only
when it lies in `[0, MAX_CATEGORY_LENGTH)`, otherwise keep the current
configuration. -/
def setLetterLength (cfg : PasswordConfig) (val : Int) : PasswordConfig :=
  if 0 ≤ val ∧ val < (MAX_CATEGORY_LENGTH : Int) then { cfg with letterLength := val } else cfg

/-- `cli_parser.c` line 62: same acceptance rule for `--numbers=`. -/
def setNumberLength (cfg : PasswordConfig) (val : Int) : PasswordConfig :=
  if 0 ≤ val ∧ val < (MAX_CATEGORY_LENGTH : Int) then { cfg with numberLength := val } else cfg

/-- `cli_parser.c` line 71: same acceptance rule for `--symbols=`. -/
def setSymbolLength (cfg : PasswordConfig) (val : Int) : PasswordConfig :=
  if 0 ≤ val ∧ val < (MAX_CATEGORY_LENGTH : Int) then { cfg with symbolLength := val } else cfg

/-- The argument loop of the checked parser (`src/cli_parser.c` lines
29-93): the `else if` chain of flag tests; a value equal to `-2` or an
unrecognized argument starting with `'-'` makes the whole parse fail
(`return FALSE`, modelled as `none`); other unrecognized arguments are
skipped. -/
def parseLoop : List (List Char) → PasswordConfig → Option PasswordConfig
  | [], cfg => some cfg
  | arg :: rest, cfg =>
      if WStrEquals arg "--no-letters".toList then
        parseLoop rest { cfg with useLetters := false }
      else if WStrEquals arg "--no-numbers".toList then
        parseLoop rest { cfg with useNumbers := false }
      else if WStrEquals arg "--no-symbols".toList then
        parseLoop rest { cfg with useSymbols := false }
      else if WStrStartsWith arg "--letters=".toList || WStrStartsWith arg "-l=".toList then
        let val := ExtractValueFromArg arg
        if val = -2 then none else parseLoop rest (setLetterLength cfg val)
      else if WStrStartsWith arg "--numbers=".toList || WStrStartsWith arg "-n=".toList then
        let val := ExtractValueFromArg arg
        if val = -2 then none else parseLoop rest (setNumberLength cfg val)
      else if WStrStartsWith arg "--symbols=".toList || WStrStartsWith arg "-s=".toList then
        let val := ExtractValueFromArg arg
        if val = -2 then none else parseLoop rest (setSymbolLength cfg val)
      else if (match arg with | c :: _ => c == '-' | [] => false) then none
      else parseLoop rest cfg

/-- `ParseArguments` (`src/cli_parser.c` lines 19-96): start from the
defaults and process the arguments past the program name. -/
def ParseArguments (args : List (List Char)) : Option PasswordConfig :=
  parseLoop (args.drop 1) defaultConfig

end CliParser

namespace UnnamedParser

/-- The argument loop of the unnamed parser variant
(`src/unnamed/part_000` lines 27-55): same flag chain, literal bound
`1024`, every unrecognized argument silently ignored, no failure. -/
def parseLoop : List (List Char) → PasswordConfig → PasswordConfig
  | [], cfg => cfg
  | arg :: rest, cfg =>
      if WStrEquals arg "--no-letters".toList then
        parseLoop rest { cfg with useLetters := false }
      else if WStrEquals arg "--no-numbers".toList then
        parseLoop rest { cfg with useNumbers := false }
      else if WStrEquals arg "--no-symbols".toList then
        parseLoop rest { cfg with useSymbols := false }
      else if WStrStartsWith arg "--letters=".toList || WStrStartsWith arg "-l=".toList then
        let val := ExtractValueFromArg arg
        parseLoop rest (if 0 ≤ val ∧ val < 1024 then { cfg with letterLength := val } else cfg)
      else if WStrStartsWith arg "--numbers=".toList || WStrStartsWith arg "-n=".toList then
        let val := ExtractValueFromArg arg
        parseLoop rest (if 0 ≤ val ∧ val < 1024 then { cfg with numberLength := val } else cfg)
      else if WStrStartsWith arg "--symbols=".toList || WStrStartsWith arg "-s=".toList then
        let val := ExtractValueFromArg arg
        parseLoop rest (if 0 ≤ val ∧ val < 1024 then { cfg with symbolLength := val } else cfg)
      else parseLoop rest cfg

/-- `ParseArguments` (`src/unnamed/part_000` lines 17-56). -/
def ParseArguments (args : List (List Char)) : PasswordConfig :=
  parseLoop (args.drop 1) defaultConfig

end UnnamedParser

/-- An argument is one of the recognized flag forms of the two parsers. -/
def RecognizedArg (arg : List Char) : Prop :=
  WStrEquals arg "--no-letters".toList = true ∨
  WStrEquals arg "--no-numbers".toList = true ∨
  WStrEquals arg "--no-symbols".toList = true ∨
  WStrStartsWith arg "--letters=".toList = true ∨ WStrStartsWith arg "-l=".toList = true ∨
  WStrStartsWith arg "--numbers=".toList = true ∨ WStrStartsWith arg "-n=".toList = true ∨
  WStrStartsWith arg "--symbols=".toList = true ∨ WStrStartsWith arg "-s=".toList = true

instance (arg : List Char) : Decidable (RecognizedArg arg) := by
  unfold RecognizedArg; infer_instance

/-! ## Spec-side description of the assembly (for the refinement claim)

A second definition of the assembly phase, following the spec's words:
"a single entropy draw, sliced by category in a fixed, deterministic
offset order: letters segment first (if enabled), then digits (if
enabled), then symbols (if enabled).  Each category's offset is the
running sum of previously-enabled categories' lengths; disabled
categories consume zero bytes and contribute no offset.  For each input
byte `b`, output character = `alphabet[b mod |alphabet|]`." -/

/-- One category segment as the spec words it: `count` characters, the
`i`-th produced from random byte `offset + i` as `alphabet[b mod |alphabet|]`. -/
def specSegment (alphabet : List Char) (count offset : Nat) (f : Nat → Nat) : List Char :=
  (List.range count).map (fun i => mapByte alphabet (f (offset + i) % 256))

/-- The assembly as the spec words it: enabled segments in the fixed
order letters, digits, symbols, each at the running sum of the
previously-enabled categories' counts. -/
def specAssemble (letterCount numberCount symbolCount : Nat)
    (useLetters useNumbers useSymbols : Bool) (f : Nat → Nat) : List Char :=
  (if useLetters then specSegment CHARSET_LETTERS letterCount 0 f else []) ++
  (if useNumbers then
      specSegment CHARSET_NUMBERS numberCount (if useLetters then letterCount else 0) f
    else []) ++
  (if useSymbols then
      specSegment CHARSET_SYMBOLS symbolCount
        ((if useLetters then letterCount else 0) + (if useNumbers then numberCount else 0)) f
    else [])

/-! ## Concrete random sources used as evaluation inputs -/

/-- A random source whose every call succeeds: the byte fill returns all
zero bytes and forty zero DWORD draws are available. -/
def okZeroSource : CryptoSource :=
  { acquireOk := true, fill := some (fun _ => 0), dwords := List.replicate 40 (some 0) }

/-- A random source whose byte fill succeeds but whose second DWORD draw
(the second shuffle call) fails. -/
def midFailSource : CryptoSource :=
  { acquireOk := true, fill := some (fun _ => 0), dwords := [some 0, none] }

/-- The password produced by `GenerateAdvanced 8 4 4` with all
categories enabled on `okZeroSource`. -/
def advPassword844 : List Char :=
  match GenerateAdvanced 8 4 4 true true true okZeroSource with
  | .ok p => p
  | .error _ => []

/-! ## Helper lemmas: the swap is a permutation -/

/-- Pulling the `j`-th element of a list to the front while writing `x`
into its place is a permutation of consing `x`. -/
lemma getD_set_perm (t : List Char) (j : Nat) (x : Char) (hj : j < t.length) :
    List.Perm (t.getD j ' ' :: t.set j x) (x :: t) := by
  induction t generalizing j with
  | nil => simp at hj
  | cons y s ih =>
      cases j with
      | zero => simpa using List.Perm.swap x y s
      | succ j =>
          have hj' : j < s.length := by simpa using hj
          have step1 : List.Perm (s.getD j ' ' :: y :: s.set j x)
              (y :: s.getD j ' ' :: s.set j x) := List.Perm.swap y (s.getD j ' ') (s.set j x)
          have step2 : List.Perm (y :: s.getD j ' ' :: s.set j x) (y :: x :: s) :=
            (ih j hj').cons y
          have step3 : List.Perm (y :: x :: s) (x :: y :: s) := List.Perm.swap x y s
          exact (step1.trans step2).trans step3

/-- The three-assignment swap leaves the buffer a permutation of itself. -/
lemma listSwap_perm (l : List Char) (i j : Nat) (hi : i < l.length) (hj : j < l.length) :
    List.Perm (listSwap l i j) l := by
  induction l generalizing i j with
  | nil => simp at hi
  | cons x t ih =>
      cases i with
      | zero =>
          cases j with
          | zero => simp [listSwap]
          | succ j =>
              have hj' : j < t.length := by simpa using hj
              simpa [listSwap] using getD_set_perm t j x hj'
      | succ i =>
          cases j with
          | zero =>
              have hi' : i < t.length := by simpa using hi
              simpa [listSwap] using getD_set_perm t i x hi'
          | succ j =>
              have hi' : i < t.length := by simpa using hi
              have hj' : j < t.length := by simpa using hj
              simpa [listSwap] using (ih i j hi' hj').cons x

/-- The swap preserves the buffer length. -/
lemma listSwap_length (l : List Char) (i j : Nat) : (listSwap l i j).length = l.length := by
  simp [listSwap]

/-- Through the whole descending loop — whether it completes or aborts on
a failed draw — the buffer stays a permutation of its initial contents. -/
lemma shuffleGo_perm :
    ∀ (c : Nat) (buf : List Char) (tape : List (Option Nat)), c < buf.length →
      List.Perm (shuffleGo buf c tape).1 buf := by
  intro c
  induction c with
  | zero => intro buf tape _; simp [shuffleGo]
  | succ c ih =>
      intro buf tape hc
      unfold shuffleGo
      cases hdraw : drawBelow (rejectionThreshold (c + 2)) tape with
      | none => simp [hdraw]
      | some p =>
          obtain ⟨r, tape'⟩ := p
          simp only [hdraw]
          have hj : r % (c + 2) < buf.length :=
            lt_of_lt_of_le (Nat.mod_lt _ (by omega)) (by omega)
          have hlen : c < (listSwap buf (c + 1) (r % (c + 2))).length := by
            rw [listSwap_length]; omega
          exact (ih _ tape' hlen).trans (listSwap_perm buf (c + 1) (r % (c + 2)) hc hj)

/-- `ShufflePassword` always returns a permutation of its input buffer. -/
lemma ShufflePassword_perm (buf : List Char) (tape : List (Option Nat)) :
    List.Perm (ShufflePassword buf tape).1 buf := by
  unfold ShufflePassword
  cases hl : buf.length with
  | zero => simp [shuffleGo]
  | succ n => exact shuffleGo_perm n buf tape (by omega)

/-- **Claim C9**: for every buffer and every sequence of random-draw
outcomes — including sequences on which a draw fails partway through —
`ShufflePassword` leaves the buffer a permutation of its initial
contents: the multiset of characters and the buffer length are
unchanged. -/
theorem shufflePassword_permutation_C9 (buf : List Char) (tape : List (Option Nat)) :
    ((ShufflePassword buf tape).1 : Multiset Char) = (buf : Multiset Char) ∧
      (ShufflePassword buf tape).1.length = buf.length := by
  have h := ShufflePassword_perm buf tape
  exact ⟨Multiset.coe_eq_coe.mpr h, h.length_eq⟩

/-! ## Rejection-sampling correctness (claims C3, C4) -/

/-- In `[0, n*k)` each residue `j < n` occurs exactly `k` times. -/
lemma card_filter_mod (n k j : Nat) (hn : 0 < n) (hj : j < n) :
    ((Finset.range (n * k)).filter (fun r => r % n = j)).card = k := by
  have hmem : ∀ q, q ∈ Finset.range k →
      n * q + j ∈ (Finset.range (n * k)).filter (fun r => r % n = j) := by
    intro q hq
    rw [Finset.mem_range] at hq
    rw [Finset.mem_filter, Finset.mem_range]
    refine ⟨?_, ?_⟩
    · calc n * q + j < n * q + n := by omega
        _ = n * (q + 1) := by ring
        _ ≤ n * k := Nat.mul_le_mul_left n (by omega)
    · rw [Nat.mul_add_mod]
      exact Nat.mod_eq_of_lt hj
  have hmem' : ∀ r, r ∈ (Finset.range (n * k)).filter (fun r => r % n = j) →
      r / n ∈ Finset.range k := by
    intro r hr
    rw [Finset.mem_filter, Finset.mem_range] at hr
    rw [Finset.mem_range, Nat.div_lt_iff_lt_mul hn, Nat.mul_comm]
    exact hr.1
  have h := Finset.card_bij'
    (i := fun q (hq : q ∈ Finset.range k) => n * q + j)
    (j := fun r (hr : r ∈ (Finset.range (n * k)).filter (fun r => r % n = j)) => r / n)
    hmem hmem'
    (fun q hq => by
      show (n * q + j) / n = q
      have h1 : j / n = 0 := Nat.div_eq_of_lt hj
      rw [Nat.mul_add_div hn, h1, Nat.add_zero])
    (fun r hr => by
      show n * (r / n) + j = r
      rw [Finset.mem_filter, Finset.mem_range] at hr
      have h1 := Nat.div_add_mod r n
      omega)
  rw [Finset.card_range] at h
  exact h.symm

/-- A value accepted by the rejection-sampling loop is below the threshold. -/
lemma drawBelow_lt :
    ∀ (tape : List (Option Nat)) (threshold r : Nat) (rest : List (Option Nat)),
      drawBelow threshold tape = some (r, rest) → r < threshold := by
  intro tape
  induction tape with
  | nil => intro threshold r rest h; simp [drawBelow] at h
  | cons o tape ih =>
      intro threshold r rest h
      cases o with
      | none => simp [drawBelow] at h
      | some v =>
          rw [drawBelow] at h
          by_cases hlt : v % 2 ^ 32 < threshold
          · simp only [hlt, if_pos] at h
            obtain ⟨h1, _⟩ := Prod.mk.injEq .. ▸ (Option.some.injEq .. ▸ h)
            omega
          · simp only [hlt, if_neg, if_false] at h
            exact ih threshold r rest h

/-- **Claim C3**: for every `range` from 1 to `MAXDWORD`, the threshold
`MAXDWORD - (MAXDWORD mod range)` computed by `ShufflePassword` is at
most `MAXDWORD` and divisible by `range`; no value accepted by the
rejection loop is `≥` the threshold; and over the accepted set
`{r : r < threshold}` each target `j < range` is hit by exactly
`threshold / range` values of `r mod range` — the accepted-value-to-
target map is exactly uniform. -/
theorem rejection_sampling_uniform_C3 (range : Nat)
    (h1 : 1 ≤ range) (_h2 : range ≤ MAXDWORD) :
    rejectionThreshold range ≤ MAXDWORD ∧
    rejectionThreshold range % range = 0 ∧
    (∀ (tape rest : List (Option Nat)) (r : Nat),
        drawBelow (rejectionThreshold range) tape = some (r, rest) →
          r < rejectionThreshold range) ∧
    (∀ j, j < range →
        ((Finset.range (rejectionThreshold range)).filter (fun r => r % range = j)).card =
          rejectionThreshold range / range) := by
  have hpos : 0 < range := h1
  have hdecomp : rejectionThreshold range = range * (MAXDWORD / range) := by
    have hdm := Nat.mod_add_div MAXDWORD range
    unfold rejectionThreshold
    omega
  refine ⟨Nat.sub_le _ _, ?_, ?_, ?_⟩
  · rw [hdecomp]
    exact Nat.mul_mod_right range _
  · intro tape rest r h
    exact drawBelow_lt tape _ r rest h
  · intro j hj
    rw [hdecomp, Nat.mul_div_cancel_left _ hpos]
    exact card_filter_mod range (MAXDWORD / range) j hpos hj

/-- Witness for C3 at `range = 60`: the hypotheses hold, the threshold
bounds hold, target `7` is hit by exactly `threshold / 60` accepted
values, and the concretely accepted draw `5` is below the threshold. -/
theorem rejection_sampling_uniform_C3_witness :
    (1 ≤ 60 ∧ 60 ≤ MAXDWORD) ∧
    rejectionThreshold 60 ≤ MAXDWORD ∧
    rejectionThreshold 60 % 60 = 0 ∧
    (5 : Nat) < rejectionThreshold 60 ∧
    ((Finset.range (rejectionThreshold 60)).filter (fun r => r % 60 = 7)).card =
      rejectionThreshold 60 / 60 := by
  have h := rejection_sampling_uniform_C3 60 (by decide) (by decide)
  exact ⟨⟨by decide, by decide⟩, h.1, h.2.1,
    h.2.2.1 [some 5] [] 5 (by decide), h.2.2.2 7 (by decide)⟩

/-- **Counterexample to claim C4**: with `range = 1` the drawn value
`MAXDWORD = 4294967295` is *not* accepted on the first iteration — the
loop rejects it (here the stream then runs out, so the draw aborts),
and with a second available draw the loop runs a second iteration.  The
claim that the loop runs exactly one iteration for every possible drawn
value is therefore false. -/
theorem range_one_rejects_maxdword_C4 :
    drawBelow (rejectionThreshold 1) [some (2 ^ 32 - 1)] = none ∧
    drawBelow (rejectionThreshold 1) [some (2 ^ 32 - 1), some 0] = some (0, []) := by
  constructor <;> decide

/-- **Claim C4 (amended)**: when `range = 1`, every drawn value except
`MAXDWORD` itself is accepted on the first iteration (the threshold
degenerates to `MAXDWORD`, so the single value `MAXDWORD` is redrawn),
and the chosen swap index `j = r mod 1` is forced to 0 for every
accepted value. -/
theorem range_one_first_draw_C4 (r : Nat) (rest : List (Option Nat)) (h : r < MAXDWORD) :
    drawBelow (rejectionThreshold 1) (some r :: rest) = some (r, rest) ∧ r % 1 = 0 := by
  have hthr : rejectionThreshold 1 = MAXDWORD := by decide
  have h32 : r % 2 ^ 32 = r := by
    apply Nat.mod_eq_of_lt
    have : MAXDWORD < 2 ^ 32 := by decide
    omega
  refine ⟨?_, Nat.mod_one r⟩
  rw [drawBelow]
  simp only [h32, hthr, h, if_pos]

/-- Witness for the amended C4 at `r = 5`. -/
theorem range_one_first_draw_C4_witness :
    (5 : Nat) < MAXDWORD ∧
    (drawBelow (rejectionThreshold 1) [some 5, some 9] = some (5, [some 9]) ∧ 5 % 1 = 0) :=
  ⟨by decide, range_one_first_draw_C4 5 [some 9] (by decide)⟩

/-! ## GenerateAdvanced: validation, success shape, lengths -/

/-- When validation passes, the context is acquired and the byte fill
succeeds, `GenerateAdvanced` returns (as a success) the shuffled
assembled buffer — regardless of whether the shuffle completed. -/
lemma generateAdvanced_ok (lc nc sc : Nat) (ul un us : Bool) (src : CryptoSource)
    (f : Nat → Nat) (hcat : (ul || un || us) = true)
    (hlen : ¬ ((if ul then lc else 0) + (if un then nc else 0) + (if us then sc else 0)
      < MIN_PASSWORD_LENGTH))
    (hacq : src.acquireOk = true) (hfill : src.fill = some f) :
    GenerateAdvanced lc nc sc ul un us src =
      .ok (ShufflePassword (assemble lc nc sc ul un us f) src.dwords).1 := by
  have h1 : (!ul && !un && !us) = false := by
    rcases ul <;> rcases un <;> rcases us <;> simp_all
  unfold GenerateAdvanced
  rw [h1]
  simp only [Bool.false_eq_true, if_false, if_neg hlen, hacq, Bool.not_true,
    Bool.false_eq_true, if_false, hfill]

/-- The assembled buffer's length is the sum of the enabled categories'
counts. -/
lemma assemble_length (lc nc sc : Nat) (ul un us : Bool) (f : Nat → Nat) :
    (assemble lc nc sc ul un us f).length =
      (if ul then lc else 0) + (if un then nc else 0) + (if us then sc else 0) := by
  rcases ul <;> rcases un <;> rcases us <;>
    simp [assemble] <;> split_ifs <;> simp_all <;> omega

/-- **Claim C6**: every successful advanced generation returns a
password whose length is the sum of the enabled categories' counts
only; a disabled category contributes zero regardless of its stored
count, so disabling one category reduces the total by exactly its
configured count. -/
theorem generateAdvanced_length_C6 (lc nc sc : Nat) (ul un us : Bool)
    (src : CryptoSource) (pwd : List Char)
    (h : GenerateAdvanced lc nc sc ul un us src = .ok pwd) :
    pwd.length = (if ul then lc else 0) + (if un then nc else 0) + (if us then sc else 0) := by
  unfold GenerateAdvanced at h
  by_cases h1 : (!ul && !un && !us) = true
  · rw [if_pos h1] at h
    exact absurd h (by simp)
  · rw [if_neg h1] at h
    by_cases h2 : (if ul then lc else 0) + (if un then nc else 0) + (if us then sc else 0)
        < MIN_PASSWORD_LENGTH
    · rw [if_pos h2] at h
      exact absurd h (by simp)
    · rw [if_neg h2] at h
      by_cases h3 : (!src.acquireOk) = true
      · rw [if_pos h3] at h
        exact absurd h (by simp)
      · rw [if_neg h3] at h
        cases hfill : src.fill with
        | none => rw [hfill] at h; exact absurd h (by simp)
        | some f =>
            rw [hfill] at h
            injection h with h'
            rw [← h', (ShufflePassword_perm _ _).length_eq, assemble_length]

/-- Witness for C6: with letters=8, digits=4, symbols=4 all enabled on a
succeeding source, generation succeeds and the password has length 16. -/
theorem generateAdvanced_length_C6_witness :
    GenerateAdvanced 8 4 4 true true true okZeroSource = .ok advPassword844 ∧
      advPassword844.length = 16 := by
  have hok : GenerateAdvanced 8 4 4 true true true okZeroSource = .ok advPassword844 := by rfl
  refine ⟨hok, ?_⟩
  have h := generateAdvanced_length_C6 8 4 4 true true true okZeroSource advPassword844 hok
  simpa using h

/-- **Claim C5**: all categories disabled fails with
`NoCategoryEnabled`; an enabled total of 3 (below the minimum policy
constant 4) fails with `TooShort 4`; an enabled total of exactly 4
succeeds (whenever the random source itself works); and every
validation failure returns immediately with an error, producing no
password. -/
theorem generateAdvanced_validation_C5 (lc nc sc : Nat) (ul un us : Bool)
    (src : CryptoSource) (f : Nat → Nat) :
    (GenerateAdvanced lc nc sc false false false src = .error .noCategoryEnabled) ∧
    ((ul || un || us) = true →
      (if ul then lc else 0) + (if un then nc else 0) + (if us then sc else 0) = 3 →
      GenerateAdvanced lc nc sc ul un us src = .error (.tooShort 4)) ∧
    ((ul || un || us) = true →
      (if ul then lc else 0) + (if un then nc else 0) + (if us then sc else 0) = 4 →
      src.acquireOk = true → src.fill = some f →
      ∃ pwd, GenerateAdvanced lc nc sc ul un us src = .ok pwd) := by
  refine ⟨rfl, ?_, ?_⟩
  · intro hcat htot
    have h1 : (!ul && !un && !us) = false := by
      rcases ul <;> rcases un <;> rcases us <;> simp_all
    unfold GenerateAdvanced
    rw [h1]
    simp only [Bool.false_eq_true, if_false]
    rw [if_pos (by rw [htot]; decide)]
    rfl
  · intro hcat htot hacq hfill
    exact ⟨_, generateAdvanced_ok lc nc sc ul un us src f hcat
      (by rw [htot]; decide) hacq hfill⟩

/-- Witness for C5: concrete boundary configurations on a succeeding
source — all-disabled fails with `NoCategoryEnabled`, total 3 fails
with `TooShort 4`, total 4 succeeds. -/
theorem generateAdvanced_validation_C5_witness :
    (GenerateAdvanced 3 0 0 false false false okZeroSource = .error .noCategoryEnabled) ∧
    (GenerateAdvanced 3 0 0 true false false okZeroSource = .error (.tooShort 4)) ∧
    (∃ pwd, GenerateAdvanced 4 0 0 true false false okZeroSource = .ok pwd) := by
  have h := generateAdvanced_validation_C5 3 0 0 true false false okZeroSource (fun _ => 0)
  have h4 := generateAdvanced_validation_C5 4 0 0 true false false okZeroSource (fun _ => 0)
  exact ⟨h.1, h.2.1 (by decide) (by decide),
    h4.2.2 (by decide) (by decide) (by rfl) (by rfl)⟩

/-- **Claim C1 (exhibiting the code bug)**: on a source whose byte fill
succeeds but whose second DWORD draw fails mid-shuffle, the shuffle
aborts (its completion flag is `false`) — yet `GenerateAdvanced`
still returns the partially shuffled buffer as a success, because
`ShufflePassword` returns `void` in the C code and the caller prints
and copies the buffer unconditionally.  The buffer emitted
(`"0a0a"`) is the one-swap-then-abort state, not the assembled
`"aa00"` and not a failure report. -/
theorem midShuffle_failure_emitted_C1 :
    (ShufflePassword ['a', 'a', '0', '0'] midFailSource.dwords).2.1 = false ∧
    GenerateAdvanced 2 2 0 true true false midFailSource = .ok ['0', 'a', '0', 'a'] ∧
    (['0', 'a', '0', 'a'] : List Char) ≠ ['a', 'a', '0', '0'] := by
  refine ⟨by decide, by rfl, by decide⟩

/-! ## The assembly refines the spec's segment description (claim C7) -/

/-- The source assembly loop equals the spec's segment description. -/
lemma assemble_eq_spec (lc nc sc : Nat) (ul un us : Bool) (f : Nat → Nat) :
    assemble lc nc sc ul un us f = specAssemble lc nc sc ul un us f := by
  rcases ul <;> rcases un <;> rcases us <;>
    simp only [assemble, specAssemble, specSegment, Bool.true_eq_false, false_and, true_and,
      if_false, if_true, Nat.zero_add, List.nil_append, List.append_nil] <;>
    split_ifs <;>
    simp_all [Nat.le_zero, List.range_zero, List.map_nil]

/-- **Claim C7**: the assembly slices one `totalLength`-byte draw by
category in the fixed order letters, digits, symbols (enabled
categories only): it equals the spec-side description in which each
enabled category's segment sits at the running sum of the
previously-enabled categories' counts and each output character is
`alphabet[b mod |alphabet|]` for that segment's random byte `b`; and
the assembled buffer depends only on the first `totalLength` bytes of
the draw (disabled categories consume no bytes). -/
theorem assemble_segments_C7 (lc nc sc : Nat) (ul un us : Bool) (f : Nat → Nat) :
    assemble lc nc sc ul un us f = specAssemble lc nc sc ul un us f ∧
    (∀ g : Nat → Nat,
      (∀ i, i < (if ul then lc else 0) + (if un then nc else 0) + (if us then sc else 0) →
        f i = g i) →
      assemble lc nc sc ul un us f = assemble lc nc sc ul un us g) := by
  refine ⟨assemble_eq_spec lc nc sc ul un us f, ?_⟩
  intro g hfg
  unfold assemble
  have hL : (if ul = true ∧ 0 < lc then
        (List.range lc).map (fun i => mapByte CHARSET_LETTERS (f i % 256))
      else []) =
      (if ul = true ∧ 0 < lc then
        (List.range lc).map (fun i => mapByte CHARSET_LETTERS (g i % 256))
      else []) := by
    by_cases h : ul = true ∧ 0 < lc
    · rw [if_pos h, if_pos h]
      refine List.map_congr_left ?_
      intro i hi
      rw [List.mem_range] at hi
      have hA : (if ul = true then lc else 0) = lc := if_pos h.1
      rw [hfg i (by rw [hA]; omega)]
    · rw [if_neg h, if_neg h]
  have hN : (if un = true ∧ 0 < nc then
        (List.range nc).map
          (fun i => mapByte CHARSET_NUMBERS (f ((if ul = true then lc else 0) + i) % 256))
      else []) =
      (if un = true ∧ 0 < nc then
        (List.range nc).map
          (fun i => mapByte CHARSET_NUMBERS (g ((if ul = true then lc else 0) + i) % 256))
      else []) := by
    by_cases h : un = true ∧ 0 < nc
    · rw [if_pos h, if_pos h]
      refine List.map_congr_left ?_
      intro i hi
      rw [List.mem_range] at hi
      have hB : (if un = true then nc else 0) = nc := if_pos h.1
      rw [hfg _ (by rw [hB]; omega)]
    · rw [if_neg h, if_neg h]
  have hS : (if us = true ∧ 0 < sc then
        (List.range sc).map
          (fun i => mapByte CHARSET_SYMBOLS
            (f ((if ul = true then lc else 0) + (if un = true then nc else 0) + i) % 256))
      else []) =
      (if us = true ∧ 0 < sc then
        (List.range sc).map
          (fun i => mapByte CHARSET_SYMBOLS
            (g ((if ul = true then lc else 0) + (if un = true then nc else 0) + i) % 256))
      else []) := by
    by_cases h : us = true ∧ 0 < sc
    · rw [if_pos h, if_pos h]
      refine List.map_congr_left ?_
      intro i hi
      rw [List.mem_range] at hi
      have hC : (if us = true then sc else 0) = sc := if_pos h.1
      rw [hfg _ (by rw [hC]; omega)]
    · rw [if_neg h, if_neg h]
  rw [hL, hN, hS]

/-! ## GenerateCore: the legacy path (claim C8) -/

/-- **Claim C8**: `GenerateCore(length, includeSymbols)` rejects any
length below the minimum policy constant 4 with the minimum-length
validation error; otherwise (when the source works) it draws `length`
random bytes and maps byte `i` directly to output position `i` through
the Full (84-character) alphabet when symbols are included, or the
Alphanumeric (62-character) alphabet otherwise — a pure positionwise
map, hence no shuffle. -/
theorem generateCore_legacy_C8 (length : Nat) (useSymbols : Bool)
    (src : CryptoSource) (f : Nat → Nat) :
    (length < MIN_PASSWORD_LENGTH →
      GenerateCore length useSymbols src = .error (.tooShort MIN_PASSWORD_LENGTH)) ∧
    (¬ length < MIN_PASSWORD_LENGTH → src.acquireOk = true → src.fill = some f →
      GenerateCore length useSymbols src =
        .ok ((List.range length).map (fun i =>
          mapByte (if useSymbols then CHARSET_FULL else CHARSET_ALPHANUM) (f i % 256)))) ∧
    CHARSET_FULL.length = 84 ∧ CHARSET_ALPHANUM.length = 62 := by
  refine ⟨?_, ?_, by decide, by decide⟩
  · intro hshort
    unfold GenerateCore
    rw [if_pos hshort]
  · intro hlen hacq hfill
    unfold GenerateCore
    rw [if_neg hlen, hacq]
    simp only [Bool.not_true, Bool.false_eq_true, if_false, hfill]

/-- Witness for C8 at `length = 3` (rejected) and `length = 4`
(generated through the alphanumeric charset) on a succeeding source. -/
theorem generateCore_legacy_C8_witness :
    ((3 : Nat) < MIN_PASSWORD_LENGTH ∧
      GenerateCore 3 true okZeroSource = .error (.tooShort MIN_PASSWORD_LENGTH)) ∧
    (¬ (4 : Nat) < MIN_PASSWORD_LENGTH ∧
      GenerateCore 4 false okZeroSource =
        .ok ((List.range 4).map (fun i =>
          mapByte (if false then CHARSET_FULL else CHARSET_ALPHANUM) ((fun _ => 0) i % 256)))) := by
  have h3 := generateCore_legacy_C8 3 true okZeroSource (fun _ => 0)
  have h4 := generateCore_legacy_C8 4 false okZeroSource (fun _ => 0)
  exact ⟨⟨by decide, h3.1 (by decide)⟩,
    ⟨by decide, h4.2.1 (by decide) (by rfl) (by rfl)⟩⟩

/-! ## Category range checking (claim C2) -/

/-- **Counterexample to claim C2**: `GenerateAdvanced` performs no
per-category range validation.  A request with `letterCount = 1024`
(`= MAX_CATEGORY_LENGTH`, outside `[0, MAX_CATEGORY_LENGTH)`) does not
fail with `OutOfRange` — on a working source it generates a password. -/
theorem category_range_unchecked_C2_counterexample :
    (∃ pwd, GenerateAdvanced 1024 0 0 true false false okZeroSource = .ok pwd) ∧
    (∀ e : GenError, GenerateAdvanced 1024 0 0 true false false okZeroSource ≠ .error e) := by
  have h := generateAdvanced_ok 1024 0 0 true false false okZeroSource (fun _ => 0)
    (by decide) (by decide) (by rfl) (by rfl)
  refine ⟨⟨_, h⟩, ?_⟩
  intro e hc
  rw [h] at hc
  cases hc

/-- **Claim C2 (amended)**: `GenerateAdvanced` itself performs no
per-category range validation and never fails with `OutOfRange`; the
`[0, MAX_CATEGORY_LENGTH)` check lives in the CLI parser, which accepts
an assigned category length only when it lies in that range and
otherwise keeps the previous (default) value instead of failing
generation. -/
theorem category_range_parser_only_C2 :
    (∀ (lc nc sc : Nat) (ul un us : Bool) (src : CryptoSource) (cat : String) (mx : Nat),
      GenerateAdvanced lc nc sc ul un us src ≠ .error (.outOfRange cat mx)) ∧
    (∀ (cfg : PasswordConfig) (v : Int),
      (0 ≤ v → v < (MAX_CATEGORY_LENGTH : Int) →
        CliParser.setLetterLength cfg v = { cfg with letterLength := v } ∧
        CliParser.setNumberLength cfg v = { cfg with numberLength := v } ∧
        CliParser.setSymbolLength cfg v = { cfg with symbolLength := v }) ∧
      (¬ (0 ≤ v ∧ v < (MAX_CATEGORY_LENGTH : Int)) →
        CliParser.setLetterLength cfg v = cfg ∧
        CliParser.setNumberLength cfg v = cfg ∧
        CliParser.setSymbolLength cfg v = cfg)) := by
  constructor
  · intro lc nc sc ul un us src cat mx h
    unfold GenerateAdvanced at h
    by_cases h1 : (!ul && !un && !us) = true
    · rw [if_pos h1] at h
      simp at h
    · rw [if_neg h1] at h
      by_cases h2 : (if ul then lc else 0) + (if un then nc else 0) + (if us then sc else 0)
          < MIN_PASSWORD_LENGTH
      · rw [if_pos h2] at h
        simp at h
      · rw [if_neg h2] at h
        by_cases h3 : (!src.acquireOk) = true
        · rw [if_pos h3] at h
          simp at h
        · rw [if_neg h3] at h
          cases hfill : src.fill with
          | none => rw [hfill] at h; simp at h
          | some f => rw [hfill] at h; simp at h
  · intro cfg v
    constructor
    · intro hv0 hv1
      refine ⟨?_, ?_, ?_⟩ <;>
        simp only [CliParser.setLetterLength, CliParser.setNumberLength,
          CliParser.setSymbolLength, if_pos (And.intro hv0 hv1)]
    · intro hv
      refine ⟨?_, ?_, ?_⟩ <;>
        simp only [CliParser.setLetterLength, CliParser.setNumberLength,
          CliParser.setSymbolLength, if_neg hv]

/-- Witness for the amended C2: a concrete generation never reports
`OutOfRange`; the parser accepts the in-range value 10 and keeps the
default on the out-of-range value 5000. -/
theorem category_range_parser_only_C2_witness :
    GenerateAdvanced 1 1 1 true true true okZeroSource ≠ .error (.outOfRange "letters" 1024) ∧
    ((0 : Int) ≤ 10 ∧ (10 : Int) < (MAX_CATEGORY_LENGTH : Int) ∧
      CliParser.setLetterLength defaultConfig 10 = { defaultConfig with letterLength := 10 }) ∧
    (¬ ((0 : Int) ≤ 5000 ∧ (5000 : Int) < (MAX_CATEGORY_LENGTH : Int)) ∧
      CliParser.setLetterLength defaultConfig 5000 = defaultConfig) := by
  have h := category_range_parser_only_C2
  refine ⟨h.1 1 1 1 true true true okZeroSource "letters" 1024, ?_, ?_⟩
  · exact ⟨by decide, by decide, ((h.2 defaultConfig 10).1 (by decide) (by decide)).1⟩
  · exact ⟨by decide, ((h.2 defaultConfig 5000).2 (by decide)).1⟩

/-! ## The two CLI parsers agree on recognized flags (claim C10) -/

/-- The digit-accumulation loop never goes negative. -/
lemma simpleWStrToIntGo_nonneg :
    ∀ (cs : List Char) (res : Int), 0 ≤ res → 0 ≤ simpleWStrToIntGo cs res := by
  intro cs
  induction cs with
  | nil => intro res h; simpa [simpleWStrToIntGo] using h
  | cons c rest ih =>
      intro res h
      simp only [simpleWStrToIntGo]
      split_ifs with h1 h2 h3
      · norm_num [MAX_INT_PARSE_VALUE]
      · norm_num [MAX_INT_PARSE_VALUE]
      · exact ih _ (by omega)
      · exact h

/-- `ExtractValueFromArg` returns `-1` or a parsed non-negative value;
in particular it never returns `-2`. -/
lemma extractValue_ge_neg_one (arg : List Char) : -1 ≤ ExtractValueFromArg arg := by
  unfold ExtractValueFromArg
  cases h : arg.dropWhile (fun c => ¬ (c = '=')) with
  | nil => exact le_rfl
  | cons c rest =>
      show (-1 : Int) ≤ SimpleWStrToInt rest
      have h0 := simpleWStrToIntGo_nonneg rest 0 le_rfl
      unfold SimpleWStrToInt
      omega

/-- On argument lists made only of recognized flags, the checked parser
loop succeeds and computes exactly what the unnamed parser loop does. -/
lemma parseLoops_agree :
    ∀ (rest : List (List Char)) (cfg : PasswordConfig),
      (∀ a ∈ rest, RecognizedArg a) →
      CliParser.parseLoop rest cfg = some (UnnamedParser.parseLoop rest cfg) := by
  intro rest
  induction rest with
  | nil => intro cfg _; rfl
  | cons a rest ih =>
      intro cfg hrec
      have ha : RecognizedArg a := hrec a (List.mem_cons_self a rest)
      have hrest : ∀ x ∈ rest, RecognizedArg x := fun x hx => hrec x (List.mem_cons_of_mem a hx)
      have hne : ¬ (ExtractValueFromArg a = -2) := by
        have := extractValue_ge_neg_one a
        omega
      have hcast : ((MAX_CATEGORY_LENGTH : Nat) : Int) = 1024 := by
        norm_num [MAX_CATEGORY_LENGTH]
      simp only [CliParser.parseLoop, UnnamedParser.parseLoop]
      by_cases h1 : WStrEquals a "--no-letters".toList = true
      · rw [if_pos h1, if_pos h1]
        exact ih _ hrest
      · rw [if_neg h1, if_neg h1]
        by_cases h2 : WStrEquals a "--no-numbers".toList = true
        · rw [if_pos h2, if_pos h2]
          exact ih _ hrest
        · rw [if_neg h2, if_neg h2]
          by_cases h3 : WStrEquals a "--no-symbols".toList = true
          · rw [if_pos h3, if_pos h3]
            exact ih _ hrest
          · rw [if_neg h3, if_neg h3]
            by_cases h4 : (WStrStartsWith a "--letters=".toList ||
                WStrStartsWith a "-l=".toList) = true
            · rw [if_pos h4, if_pos h4, if_neg hne]
              rw [CliParser.setLetterLength, hcast]
              exact ih _ hrest
            · rw [if_neg h4, if_neg h4]
              by_cases h5 : (WStrStartsWith a "--numbers=".toList ||
                  WStrStartsWith a "-n=".toList) = true
              · rw [if_pos h5, if_pos h5, if_neg hne]
                rw [CliParser.setNumberLength, hcast]
                exact ih _ hrest
              · rw [if_neg h5, if_neg h5]
                by_cases h6 : (WStrStartsWith a "--symbols=".toList ||
                    WStrStartsWith a "-s=".toList) = true
                · rw [if_pos h6, if_pos h6, if_neg hne]
                  rw [CliParser.setSymbolLength, hcast]
                  exact ih _ hrest
                · exfalso
                  rcases ha with h | h | h | h | h | h | h | h | h
                  · exact h1 h
                  · exact h2 h
                  · exact h3 h
                  · exact h4 (by rw [h]; rfl)
                  · exact h4 (by rw [h, Bool.or_true])
                  · exact h5 (by rw [h]; rfl)
                  · exact h5 (by rw [h, Bool.or_true])
                  · exact h6 (by rw [h]; rfl)
                  · exact h6 (by rw [h, Bool.or_true])

/-- **Claim C10**: on every argument list in which every argument past
the program name is a recognized flag, the two `ParseArguments`
implementations compute the identical `PasswordConfig` (and the checked
one succeeds), both starting from the defaults of all categories
enabled with lengths 8, 4 and 4. -/
theorem parsers_equivalent_C10 (args : List (List Char))
    (h : ∀ a ∈ args.drop 1, RecognizedArg a) :
    CliParser.ParseArguments args = some (UnnamedParser.ParseArguments args) :=
  parseLoops_agree (args.drop 1) defaultConfig h

/-- Witness for C10: a concrete recognized-flag command line, on which
both parsers agree. -/
theorem parsers_equivalent_C10_witness :
    (RecognizedArg "--no-symbols".toList ∧ RecognizedArg "--letters=10".toList) ∧
    CliParser.ParseArguments [ "prog".toList, "--no-symbols".toList, "--letters=10".toList ] =
      some (UnnamedParser.ParseArguments
        [ "prog".toList, "--no-symbols".toList, "--letters=10".toList ]) :=
  ⟨⟨by decide, by decide⟩, parsers_equivalent_C10 _ (by decide)⟩

/-- Witness for C7: at letters=2, digits=1, symbols disabled, the
assembly matches the spec segments, and changing the byte stream beyond
index `totalLength = 3` does not change the assembled buffer. -/
theorem assemble_segments_C7_witness :
    assemble 2 1 0 true true false (fun _ => 0) =
      specAssemble 2 1 0 true true false (fun _ => 0) ∧
    assemble 2 1 0 true true false (fun _ => 0) =
      assemble 2 1 0 true true false (fun i => if i < 3 then 0 else 99) := by
  have h := assemble_segments_C7 2 1 0 true true false (fun _ => 0)
  exact ⟨h.1, h.2 (fun i => if i < 3 then 0 else 99) (by decide)⟩

end WinPass
